import Mathlib

/-!
# Verification of the galileo_vt_styler Style Translation Subsystem

Shallow embedding of the style translation subsystem:
* `src/maptiler_style/converter.rs` — the ESS (MapTiler) → ISR translator,
  the CSS color codec, the paint/layout value extractors and the ESS filter
  parser;
* `src/app/style.rs` — the editor rule model, the filter text DSL, the rule
  list operations and the change debouncing.

Modelling conventions:
* Rust `f64` values that flow through the translator are modelled as exact
  rationals (`ℚ`); every concrete input exercised below is exactly
  representable in binary floating point, so the modelled arithmetic agrees
  with the source on those inputs.
* A Rust panic (out-of-bounds `Vec` index) is modelled as `Except.error ()`;
  functions that cannot reach an unguarded index are pure.
* `serde_json::Value` is modelled by the inductive `Json`; objects are
  association lists looked up by first match.
-/

/-- 8-bit RGBA color, the tuple stored by `galileo::Color` (`Color::rgba`). -/
structure Color where
  r : Nat
  g : Nat
  b : Nat
  a : Nat
deriving DecidableEq, Repr

/-- `galileo::Color::rgba`. -/
def Color.rgba (r g b a : Nat) : Color := ⟨r, g, b, a⟩

/-- `galileo::Color::BLACK`. -/
def Color.BLACK : Color := ⟨0, 0, 0, 255⟩

/-- `galileo::Color::WHITE`. -/
def Color.WHITE : Color := ⟨255, 255, 255, 255⟩

/-- Value of a decimal digit sequence (used by the numeric literal parsers). -/
def natOfDigits (cs : List Char) : Nat :=
  cs.foldl (fun acc c => acc * 10 + (c.toNat - 48)) 0

/-- Rational value of a decimal digit sequence. -/
def ratOfDigits (cs : List Char) : ℚ := (natOfDigits cs : ℚ)

/-- Modelled from the spec: parsing of `f64` numeric literals
(`str::parse::<f64>` in `PropertyFilterOperator::from_str` and in the color
parsers): optional sign, then decimal digits with an optional fractional
part; at least one digit is required.  Exponents and the special values of
`f64` are outside the decimal forms exercised by this development. -/
def parseNum (s : String) : Option ℚ :=
  let cs := s.toList
  let signAndRest : ℚ × List Char :=
    match cs with
    | '-' :: rest => (-1, rest)
    | '+' :: rest => (1, rest)
    | _ => (1, cs)
  let sign := signAndRest.1
  let body := signAndRest.2
  let intPart := body.takeWhile Char.isDigit
  let rest := body.dropWhile Char.isDigit
  match rest with
  | [] => if intPart.isEmpty then none else some (sign * ratOfDigits intPart)
  | '.' :: frac =>
    if frac.all Char.isDigit && !(intPart.isEmpty && frac.isEmpty) then
      some (sign * (ratOfDigits intPart + ratOfDigits frac / (10 : ℚ) ^ frac.length))
    else none
  | _ => none

/-- `str::parse::<u8>`: optional `+`, decimal digits, value at most 255. -/
def parseU8 (s : String) : Option Nat :=
  let cs := s.toList
  let body := match cs with
    | '+' :: rest => rest
    | _ => cs
  if body.isEmpty || !body.all Char.isDigit then none
  else
    let n := natOfDigits body
    if n ≤ 255 then some n else none

/-- Value of one hexadecimal digit (`u8::from_str_radix(_, 16)`). -/
def hexDigit? (c : Char) : Option Nat :=
  if c.isDigit then some (c.toNat - 48)
  else if 'a' ≤ c ∧ c ≤ 'f' then some (c.toNat - 87)
  else if 'A' ≤ c ∧ c ≤ 'F' then some (c.toNat - 55)
  else none

/-- Two hexadecimal digits as one byte. -/
def hexPair (c₁ c₂ : Char) : Option Nat := do
  let h ← hexDigit? c₁
  let l ← hexDigit? c₂
  pure (h * 16 + l)

/-- Splitting point of the first occurrence of `sep` in a character list:
the piece before the occurrence and the remainder after it. -/
def findSub? (sep : List Char) : List Char → Option (List Char × List Char) :=
  fun cs =>
    if sep.isPrefixOf cs then some ([], cs.drop sep.length)
    else
      match cs with
      | [] => none
      | c :: rest => (findSub? sep rest).map (fun pr => (c :: pr.1, pr.2))

/-- Fuelled splitting loop: each found occurrence consumes at least one
character, so fuel `length + 1` never runs out. -/
def splitLoop (sep : List Char) : Nat → List Char → List (List Char)
  | 0, cs => [cs]
  | fuel + 1, cs =>
    match findSub? sep cs with
    | none => [cs]
    | some (pre, suf) => pre :: splitLoop sep fuel suf

/-- Rust `str::split` collected into a vector (the semantics of
`String::splitOn` for a non-empty separator): the pieces between
non-overlapping leftmost occurrences of the separator. -/
def strSplitOn (s sep : String) : List String :=
  if sep.toList.isEmpty then [s]
  else (splitLoop sep.toList (s.toList.length + 1) s.toList).map String.mk

/-- Rust `str::trim`: remove leading and trailing whitespace. -/
def strTrim (s : String) : String :=
  String.mk
    (((s.toList.dropWhile Char.isWhitespace).reverse.dropWhile
      Char.isWhitespace).reverse)

/-- Rust `str::starts_with`. -/
def strStartsWith (s p : String) : Bool := p.toList.isPrefixOf s.toList

/-- `str::strip_prefix`. -/
def stripPrefixStr (s p : String) : Option String :=
  if p.toList.isPrefixOf s.toList then
    some (String.mk (s.toList.drop p.toList.length))
  else none

/-- `str::strip_suffix`. -/
def stripSuffixStr (s p : String) : Option String :=
  if p.toList.isSuffixOf s.toList then
    some (String.mk (s.toList.take (s.toList.length - p.toList.length)))
  else none

/-- Rust `str::contains` for a non-empty pattern: the pattern occurs as a
substring exactly when splitting on it yields at least two pieces. -/
def containsSubstr (s pat : String) : Bool :=
  (strSplitOn s pat).length ≥ 2

/-- `String` concatenation of pieces with a separator
(`Vec::join` / `String::intercalate`). -/
def strIntercalate (sep : String) : List String → String
  | [] => ""
  | [x] => x
  | x :: xs => x ++ sep ++ strIntercalate sep xs

/-- Rust `f64::round`: round half away from zero. -/
def f64Round (q : ℚ) : ℚ :=
  if 0 ≤ q then (⌊q + 1/2⌋ : ℤ) else -(⌊-q + 1/2⌋ : ℤ)

/-- Rust `as u8` cast from `f64`: truncate toward zero, saturating at the
bounds of `u8` (negative values to 0, values above 255 to 255). -/
def f64AsU8 (q : ℚ) : Nat :=
  if q < 0 then 0 else min 255 ⌊q⌋.toNat

/-- `serde_json::Value`. -/
inductive Json where
  | null
  | bool (b : Bool)
  | num (q : ℚ)
  | str (s : String)
  | arr (items : List Json)
  | obj (fields : List (String × Json))

/-- `Value::get(key)`: field lookup on objects, `None` otherwise. -/
def Json.get (v : Json) (key : String) : Option Json :=
  match v with
  | .obj fields => (fields.find? (fun p => p.1 == key)).map Prod.snd
  | _ => none

/-- `Value::as_str`. -/
def Json.asStr : Json → Option String
  | .str s => some s
  | _ => none

/-- `Value::as_f64` (all serde number representations convert). -/
def Json.asNum : Json → Option ℚ
  | .num q => some q
  | _ => none

/-- `Value::as_array`. -/
def Json.asArr : Json → Option (List Json)
  | .arr items => some items
  | _ => none

/-- Immutable `Index<usize>` on `serde_json::Value`: element of an array, or
`Null` when out of bounds or not an array. -/
def Json.index (v : Json) (i : Nat) : Json :=
  match v with
  | .arr items => (items.get? i).getD .null
  | _ => .null

/-- A Rust `Vec` index expression `v[i]`: panics when out of bounds. -/
def vecIdx (items : List Json) (i : Nat) : Except Unit Json :=
  match items.get? i with
  | some v => .ok v
  | none => .error ()

/-- Modelled from the spec: the `FilterOperator` variant of the external
galileo style library (spec §3): string equality and inequality, numeric
comparisons, membership over a set of strings, and presence tests. -/
inductive PropertyFilterOperator where
  | Eq (v : String)
  | Ne (v : String)
  | Lt (n : ℚ)
  | Le (n : ℚ)
  | Gt (n : ℚ)
  | Ge (n : ℚ)
  | In (vs : List String)
  | NotIn (vs : List String)
  | Exist
  | NotExist
deriving DecidableEq, Repr

/-- Modelled from the spec: `PropertyFilterOperator::from_str(op, value)` of
the external galileo library (spec §3, §4.3, §4.5): the operator token
selects the variant, the comparison operators parse their value as a number,
the membership operators take the comma-separated value list, and an unknown
operator token — or an unparseable numeric value — yields `none`. -/
def PropertyFilterOperator.from_str (op value : String) : Option PropertyFilterOperator :=
  if op = "==" then some (.Eq value)
  else if op = "!=" then some (.Ne value)
  else if op = "<" then (parseNum value).map .Lt
  else if op = "<=" then (parseNum value).map .Le
  else if op = ">" then (parseNum value).map .Gt
  else if op = ">=" then (parseNum value).map .Ge
  else if op = "in" then some (.In (strSplitOn value ","))
  else if op = "not in" then some (.NotIn (strSplitOn value ","))
  else if op = "exist" then some .Exist
  else if op = "not exist" then some .NotExist
  else none

/-- `galileo` `PropertyFilter`: a property name and an operator. -/
structure PropertyFilter where
  property_name : String
  operator : PropertyFilterOperator
deriving DecidableEq, Repr

/-- `galileo` `TextStyle` as populated by this repository: the fields the
code sets (alignment, weight and style are fixed defaults of the external
type and carry no information here). -/
structure TextStyle where
  font_family : List String
  font_size : ℚ
  font_color : Color
  outline_width : ℚ
  outline_color : Color
deriving DecidableEq, Repr

/-- `galileo` `VectorTileSymbol`. -/
inductive VectorTileSymbol where
  | None
  | Point (size : ℚ) (color : Color)
  | Line (width : ℚ) (stroke_color : Color)
  | Polygon (fill_color : Color)
  | Label (pattern : String) (text_style : TextStyle)
deriving DecidableEq, Repr

/-- `galileo` `StyleRule`. -/
structure StyleRule where
  layer_name : Option String
  properties : List PropertyFilter
  symbol : VectorTileSymbol
deriving DecidableEq, Repr

/-- `LayerType` from `src/maptiler_style/mod.rs`. -/
inductive LayerType where
  | Fill
  | Line
  | Symbol
  | Circle
  | Heatmap
  | FillExtrusion
  | Raster
  | Hillshade
  | Background
deriving DecidableEq, Repr

/-- `Layer` from `src/maptiler_style/mod.rs` (the fields the converter
reads). -/
structure Layer where
  id : String
  layer_type : LayerType
  source : Option String
  source_layer : Option String
  layout : Option Json
  paint : Option Json
  filter : Option Json

/-- The canonical decimal form of a serde number (`n.to_string()`).  Exact
on integers; non-integral rationals never reach it in this development. -/
def numToString (q : ℚ) : String :=
  if q.den = 1 then toString q.num else toString q.num ++ "/" ++ toString q.den

mutual

/-- `value_to_string` from `converter.rs`: stringify a JSON value (strings
as-is, numbers in canonical decimal form, booleans as text, arrays joined
with commas, everything else empty). -/
def value_to_string : Json → String
  | .str s => s
  | .num q => numToString q
  | .bool b => if b then "true" else "false"
  | .arr items => strIntercalate "," (valuesToString items)
  | _ => ""

def valuesToString : List Json → List String
  | [] => []
  | v :: rest => value_to_string v :: valuesToString rest

end

mutual

/-- `parse_filter_to_rules` from `converter.rs`: parse an ESS filter
expression into a flat predicate list.  `Except.error ()` models the panics
of the source: `filter_arr[1]` and `filter_arr[2]` are unguarded `Vec`
indexes, and `&filter_arr[2..]` panics when the array has fewer than two
elements. -/
def parse_filter_to_rules : Json → Except Unit (Option (List PropertyFilter))
  | .arr [] => .ok none
  | .arr (f₀ :: rest) => do
    let filter_arr := f₀ :: rest
    let operator := match f₀.asStr.getD "" with
      | "!in" => "not in"
      | "has" => "exist"
      | "!has" => "not exist"
      | v => v
    if operator = "all" then
      let filters ← parseAllParts rest
      .ok (some filters)
    else do
      let value ← match operator with
        | "in" | "not in" =>
          if filter_arr.length < 2 then .error ()
          else .ok (strIntercalate "," (valuesToString (filter_arr.drop 2)))
        | "exist" | "not exist" => .ok ""
        | _ => do
          let v ← vecIdx filter_arr 2
          .ok (value_to_string v)
      match PropertyFilterOperator.from_str operator value with
      | some filter_operator => do
        let p ← vecIdx filter_arr 1
        let property := p.asStr.getD ""
        if strStartsWith property "$" then .ok none
        else .ok (some [⟨property, filter_operator⟩])
      | none => .ok none
  | _ => .ok none

def parseAllParts : List Json → Except Unit (List PropertyFilter)
  | [] => .ok []
  | sub :: rest => do
    let subResult ← parse_filter_to_rules sub
    let restFilters ← parseAllParts rest
    match subResult with
    | some fs => .ok (fs ++ restFilters)
    | none => .ok restFilters

end

/-- `parse_hex_color` from `converter.rs` (`#RGB` and `#RRGGBB`). -/
def parse_hex_color (hexStr : String) : Option Color :=
  let hexStr := strTrim hexStr
  match hexStr.toList with
  | [c₀, c₁, c₂] => do
    let r ← hexPair c₀ c₀
    let g ← hexPair c₁ c₁
    let b ← hexPair c₂ c₂
    pure (Color.rgba r g b 255)
  | [c₀, c₁, c₂, c₃, c₄, c₅] => do
    let r ← hexPair c₀ c₁
    let g ← hexPair c₂ c₃
    let b ← hexPair c₄ c₅
    pure (Color.rgba r g b 255)
  | _ => none

/-- `hue_to_rgb` from `converter.rs`. -/
def hue_to_rgb (p q t : ℚ) : ℚ :=
  let t := if t < 0 then t + 1 else t
  let t := if t > 1 then t - 1 else t
  if t < 1/6 then p + (q - p) * 6 * t
  else if t < 1/2 then q
  else if t < 2/3 then p + (q - p) * (2/3 - t) * 6
  else p

/-- `hsl_to_rgb` from `converter.rs`. -/
def hsl_to_rgb (h s l : ℚ) : Color :=
  let h := h / 360
  let rgb : ℚ × ℚ × ℚ :=
    if s = 0 then (l, l, l)
    else
      let q := if l < 1/2 then l * (1 + s) else l + s - l * s
      let p := 2 * l - q
      (hue_to_rgb p q (h + 1/3), hue_to_rgb p q h, hue_to_rgb p q (h - 1/3))
  Color.rgba (f64AsU8 (f64Round (rgb.1 * 255))) (f64AsU8 (f64Round (rgb.2.1 * 255)))
    (f64AsU8 (f64Round (rgb.2.2 * 255))) 255

/-- `parse_hsl_color` from `converter.rs`. -/
def parse_hsl_color (color_str : String) : Option Color := do
  let inner ← stripPrefixStr color_str "hsl("
  let inner ← stripSuffixStr inner ")"
  match (strSplitOn inner ",").map strTrim with
  | [p₀, p₁, p₂] => do
    let h ← parseNum p₀
    let s ← (stripSuffixStr p₁ "%").bind parseNum
    let l ← (stripSuffixStr p₂ "%").bind parseNum
    pure (hsl_to_rgb h (s / 100) (l / 100))
  | _ => none

/-- `parse_hsla_color` from `converter.rs`: alpha is `(a * 255.0) as u8`. -/
def parse_hsla_color (color_str : String) : Option Color := do
  let inner ← stripPrefixStr color_str "hsla("
  let inner ← stripSuffixStr inner ")"
  match (strSplitOn inner ",").map strTrim with
  | [p₀, p₁, p₂, p₃] => do
    let h ← parseNum p₀
    let s ← (stripSuffixStr p₁ "%").bind parseNum
    let l ← (stripSuffixStr p₂ "%").bind parseNum
    let a ← parseNum p₃
    let rgb := hsl_to_rgb h (s / 100) (l / 100)
    pure (Color.rgba rgb.r rgb.g rgb.b (f64AsU8 (a * 255)))
  | _ => none

/-- `parse_rgb_color` from `converter.rs`. -/
def parse_rgb_color (color_str : String) : Option Color := do
  let inner ← stripPrefixStr color_str "rgb("
  let inner ← stripSuffixStr inner ")"
  match (strSplitOn inner ",").map strTrim with
  | [p₀, p₁, p₂] => do
    let r ← parseU8 p₀
    let g ← parseU8 p₁
    let b ← parseU8 p₂
    pure (Color.rgba r g b 255)
  | _ => none

/-- `parse_rgba_color` from `converter.rs`: alpha is `(a * 255.0) as u8`. -/
def parse_rgba_color (color_str : String) : Option Color := do
  let inner ← stripPrefixStr color_str "rgba("
  let inner ← stripSuffixStr inner ")"
  match (strSplitOn inner ",").map strTrim with
  | [p₀, p₁, p₂, p₃] => do
    let r ← parseU8 p₀
    let g ← parseU8 p₁
    let b ← parseU8 p₂
    let a ← parseNum p₃
    pure (Color.rgba r g b (f64AsU8 (a * 255)))
  | _ => none

/-- `parse_color` from `converter.rs`: dispatch on the literal form. -/
def parse_color (color_str : String) : Option Color :=
  let color_str := strTrim color_str
  match stripPrefixStr color_str "#" with
  | some hexStr => parse_hex_color hexStr
  | none =>
    if strStartsWith color_str "hsl(" then parse_hsl_color color_str
    else if strStartsWith color_str "hsla(" then parse_hsla_color color_str
    else if strStartsWith color_str "rgb(" then parse_rgb_color color_str
    else if strStartsWith color_str "rgba(" then parse_rgba_color color_str
    else none

/-- `apply_opacity` from `converter.rs`: replace the alpha channel with
`(opacity * 255.0).round() as u8`. -/
def apply_opacity (color : Color) (opacity : ℚ) : Color :=
  Color.rgba color.r color.g color.b (f64AsU8 (f64Round (opacity * 255)))

/-- `extract_color` from `converter.rs`.  In the `stops` branch the source
indexes `steps_arr[0]` and the inner array at `[1]` without bounds checks;
those panics are `Except.error ()`. -/
def extract_color (paint : Json) (property : String) : Except Unit (Option Color) :=
  match paint.get property with
  | none => .ok none
  | some value =>
    match value with
    | .str color_str => .ok (parse_color color_str)
    | .obj fields =>
      match (Json.obj fields).get "stops" with
      | none => .ok none
      | some steps =>
        match steps.asArr with
        | none => .ok none
        | some steps_arr => do
          let first ← vecIdx steps_arr 0
          match first.asArr with
          | none => .ok none
          | some inner => do
            let second ← vecIdx inner 1
            match second.asStr with
            | none => .ok none
            | some s => .ok (parse_color s)
    | _ => .ok none

/-- `extract_number` from `converter.rs`.  Arrays are inspected for an
`"interpolate"` head of length at least 5 (the fifth element is the first
stop output); the `stops` branch has the same unguarded indexes as
`extract_color`. -/
def extract_number (paint : Json) (property : String) : Except Unit (Option ℚ) :=
  match paint.get property with
  | none => .ok none
  | some value =>
    match value with
    | .arr values =>
      if values.isEmpty then .ok none
      else
        match (value.index 0).asStr with
        | none => .ok none
        | some head =>
          if head = "interpolate" ∧ values.length > 4 then
            .ok ((values.getD 4 .null).asNum)
          else .ok none
    | .obj fields =>
      match (Json.obj fields).get "stops" with
      | none => .ok none
      | some steps =>
        match steps.asArr with
        | none => .ok none
        | some steps_arr => do
          let first ← vecIdx steps_arr 0
          match first.asArr with
          | none => .ok none
          | some inner => do
            let second ← vecIdx inner 1
            .ok second.asNum
    | .num q => .ok (some q)
    | _ => .ok none

/-- `extract_polygon_symbol` from `converter.rs`: polygon from `fill-color`
with `fill-opacity` (default 1.0); no resolvable fill color yields
`Symbol::None`. -/
def extract_polygon_symbol (paint : Option Json) : Except Unit VectorTileSymbol :=
  match paint with
  | none => .ok .None
  | some p => do
    let colorOpt ← extract_color p "fill-color"
    match colorOpt with
    | some color => do
      let opacityOpt ← extract_number p "fill-opacity"
      let opacity := opacityOpt.getD 1
      .ok (.Polygon (apply_opacity color opacity))
    | none => .ok .None

/-- `extract_line_symbol` from `converter.rs`: line from `line-color`
(default opaque black), `line-width` (default 1.0) and `line-opacity`
(default 1.0, overwriting the stroke alpha). -/
def extract_line_symbol (paint : Option Json) : Except Unit VectorTileSymbol :=
  match paint with
  | none => .ok .None
  | some p => do
    let colorOpt ← extract_color p "line-color"
    let stroke_color := colorOpt.getD Color.BLACK
    let widthOpt ← extract_number p "line-width"
    let width := widthOpt.getD 1
    let opacityOpt ← extract_number p "line-opacity"
    let opacity := opacityOpt.getD 1
    .ok (.Line width (apply_opacity stroke_color opacity))

/-- The fixed font fallback chain of `extract_point_symbol`. -/
def converterFontFamily : List String :=
  ["Noto Sans", "Noto Sans Arabic", "Noto Sans Hebrew", "Noto Sans SC",
   "Noto Sans KR", "Noto Sans JP"]

/-- `extract_point_symbol` from `converter.rs`: a label symbol requiring
`text-field`, `text-size`, `text-color`, `text-halo-width` (doubled) and
`text-halo-color`; any missing or unparseable requirement yields `none`. -/
def extract_point_symbol (paint layout : Option Json) :
    Except Unit (Option VectorTileSymbol) :=
  match paint, layout with
  | some p, some l =>
    match (l.get "text-field").bind Json.asStr with
    | none => .ok none
    | some text_field => do
      let fontSizeOpt ← extract_number l "text-size"
      match fontSizeOpt with
      | none => .ok none
      | some font_size => do
        let fontColorOpt ← extract_color p "text-color"
        match fontColorOpt with
        | none => .ok none
        | some font_color => do
          let outlineWidthOpt ← extract_number p "text-halo-width"
          match outlineWidthOpt with
          | none => .ok none
          | some outline_width => do
            let outlineColorOpt ← extract_color p "text-halo-color"
            match outlineColorOpt with
            | none => .ok none
            | some outline_color =>
              .ok (some (.Label text_field
                ⟨converterFontFamily, font_size, font_color,
                  outline_width * 2, outline_color⟩))
  | _, _ => .ok none

/-- The symbol selection of `convert_layer` (the `match layer.layer_type`
expression): `some` when a symbol value is produced, `none` when the layer
kind is unsupported or the point-symbol extraction bails out with `?`. -/
def layerSymbol (layer : Layer) : Except Unit (Option VectorTileSymbol) :=
  match layer.layer_type with
  | .Fill | .FillExtrusion => (extract_polygon_symbol layer.paint).map some
  | .Line => (extract_line_symbol layer.paint).map some
  | .Circle | .Symbol => extract_point_symbol layer.paint layer.layout
  | _ => .ok none

/-- `convert_layer` from `converter.rs`: skip layers without a
`source-layer`; compute the symbol; skip when it is `Symbol::None`; when a
filter is present, parse it — a filter that fails to parse is logged and the
layer is then dropped through the `galileo_filters?` early return. -/
def convert_layer (layer : Layer) : Except Unit (Option StyleRule) :=
  match layer.source_layer with
  | none => .ok none
  | some layer_name =>
    match layerSymbol layer with
    | .error e => .error e
    | .ok none => .ok none
    | .ok (some symbol) =>
      if symbol = .None then .ok none
      else
        match layer.filter with
        | some filter =>
          match parse_filter_to_rules filter with
          | .error e => .error e
          | .ok none => .ok none
          | .ok (some properties) =>
            .ok (some ⟨some layer_name, properties, symbol⟩)
        | none => .ok (some ⟨some layer_name, [], symbol⟩)

/-- `RuleAction` from `src/app/style.rs`. -/
inductive RuleAction where
  | None
  | Modified
  | MoveUp
  | MoveDown
  | Remove
deriving DecidableEq, Repr

/-- `SymbolType` from `src/app/style.rs`. -/
inductive SymbolType where
  | None
  | Point
  | Line
  | Polygon
  | Label
deriving DecidableEq, Repr

/-- `Rule` from `src/app/style.rs`: one editable row of the style editor.
`egui::Color32` and `galileo::Color` are both 8-bit RGBA tuples and the
conversions between them (`to_egui_color`, `to_galileo_color`) copy the four
channels, so both are modelled by `Color`. -/
structure Rule where
  id : Nat
  layer_name : String
  filter : String
  color : Color
  size : ℚ
  symbol_type : SymbolType
  action : RuleAction
  halo_width : ℚ
  halo_color : Color
  pattern : String
deriving DecidableEq, Repr

/-- `Rule::new_empty` from `style.rs`. -/
def Rule.new_empty (id : Nat) : Rule :=
  { id := id
    layer_name := ""
    filter := ""
    color := ⟨0, 0, 0, 0⟩
    size := 1
    symbol_type := .None
    action := .None
    halo_color := Color.WHITE
    halo_width := 2
    pattern := "" }

/-- The fixed-order operator token list of `Rule::parse_filter`. -/
def operators : List String :=
  ["==", "!=", ">", "<", ">=", "<=", " not in ", " in ", "exist", "not exist"]

/-- `trim_matches(&['[', ']'][..])`: strip leading and trailing bracket
characters. -/
def trimMatchesBrackets (s : String) : String :=
  let isBracket : Char → Bool := fun c => c == '[' || c == ']'
  String.mk (((s.toList.dropWhile isBracket).reverse.dropWhile isBracket).reverse)

/-- The body of the per-block loop of `Rule::parse_filter`: find the first
operator token contained in the block; `some none` when no operator occurs
(the block is skipped), `none` when the block is malformed or the operator
construction fails (the whole filter parse fails), `some (some pf)` on
success. -/
def processBlock (block : String) : Option (Option PropertyFilter) :=
  match operators.find? (fun op => containsSubstr block op) with
  | none => some none
  | some operator =>
    match (strSplitOn block operator).map strTrim with
    | [name, rawValue] =>
      let operator := strTrim operator
      let value :=
        if operator = "in" ∨ operator = "not in" then trimMatchesBrackets rawValue
        else rawValue
      match PropertyFilterOperator.from_str operator value with
      | none => none
      | some fop => some (some ⟨name, fop⟩)
    | _ => none

/-- The block loop of `Rule::parse_filter`: process blocks in order,
collecting the produced predicates and propagating a hard failure. -/
def collectBlocks : List String → Option (List PropertyFilter)
  | [] => some []
  | block :: rest => do
    let r ← processBlock block
    let restProps ← collectBlocks rest
    match r with
    | some pf => some (pf :: restProps)
    | none => some restProps

/-- `Rule::parse_filter` from `style.rs`, as a function of the rule's filter
text: split on `&&`, process each block, and return `none` when no
predicate was produced. -/
def Rule.parse_filter (filter : String) : Option (List PropertyFilter) :=
  match collectBlocks (strSplitOn filter "&&") with
  | none => none
  | some properties => if properties.isEmpty then none else some properties

/-- The fixed font list of `Rule::get_rule`'s label branch. -/
def editorFontFamily : List String :=
  ["Noto Sans", "Noto Sans CJK JP", "Noto Sans CJK KR", "Noto Sans CJK SC",
   "Noto Sans CJK TC", "Noto Sans KR", "Noto Sans JP"]

/-- `Rule::get_rule` from `style.rs`: build a `StyleRule` from the editable
row; the predicate list is `parse_filter().unwrap_or_default()`. -/
def Rule.get_rule (r : Rule) : StyleRule :=
  let layer_name := if r.layer_name = "" then none else some r.layer_name
  let symbol : VectorTileSymbol :=
    match r.symbol_type with
    | .None => .None
    | .Point => .Point r.size r.color
    | .Line => .Line r.size r.color
    | .Polygon => .Polygon r.color
    | .Label => .Label r.pattern
        ⟨editorFontFamily, r.size, r.color, r.halo_width, r.halo_color⟩
  { layer_name := layer_name
    properties := (Rule.parse_filter r.filter).getD []
    symbol := symbol }

/-- The effect on a rule of one pass of `Rule::ui`: the action field is
reset to `None` at the start of the pass and then set to whatever the
frame's widgets produce (a button click or `Modified`); the parameter
`input` is that frame result. -/
def rule_ui (r : Rule) (input : RuleAction) : Rule := { r with action := input }

/-- The collection loop of `StyleWindow::ui`: run every rule's UI pass. -/
def setActions (rules : List Rule) (inputs : List RuleAction) : List Rule :=
  List.zipWith rule_ui rules inputs

/-- The `ui_action` accumulator of `StyleWindow::ui`: each non-`None` action
overwrites the accumulator, so the LAST non-`None` action in iteration
order survives. -/
def lastNonNone (acts : List RuleAction) : Option (Nat × RuleAction) :=
  acts.enum.foldl
    (fun acc p => if p.2 ≠ RuleAction.None then some p else acc) none

/-- `Vec::swap` on a list (both indexes in bounds in every use below). -/
def swapIdx (l : List α) (i j : Nat) : List α :=
  match l.get? i, l.get? j with
  | some a, some b => (l.set i b).set j a
  | _, _ => l

/-- The action dispatch of `StyleWindow::ui`: `MoveUp` swaps with the
previous index when positive, `MoveDown` swaps with the next index when not
last, `Remove` deletes, everything else (including `Modified`) leaves the
list unchanged. -/
def applyUiAction (rules : List Rule) : Option (Nat × RuleAction) → List Rule
  | some (i, .MoveUp) => if 0 < i then swapIdx rules i (i - 1) else rules
  | some (i, .MoveDown) =>
    if i < rules.length - 1 then swapIdx rules i (i + 1) else rules
  | some (i, .Remove) => rules.eraseIdx i
  | _ => rules

/-- One tick of the rule list portion of `StyleWindow::ui`: run every
rule's UI pass (setting the action fields), collect the surviving
(last) non-`None` action, and apply it. -/
def styleWindowTick (rules : List Rule) (inputs : List RuleAction) : List Rule :=
  let rules := setActions rules inputs
  applyUiAction rules (lastNonNone (rules.map Rule.action))

/-- The rule list and id counter of `StyleWindow` (the fields the add and
remove operations touch). -/
structure DocState where
  rules : List Rule
  last_rule_id : Nat
deriving DecidableEq, Repr

/-- An editor operation on the rule list: the `+` button
(`next_rule_id` then `push(Rule::new_empty(id))`) or a `Remove` action at
an index. -/
inductive EditOp where
  | add
  | remove (i : Nat)
deriving DecidableEq, Repr

/-- Apply one editor operation, as `StyleWindow::ui` does. -/
def applyOp (s : DocState) : EditOp → DocState
  | .add =>
    { rules := s.rules ++ [Rule.new_empty (s.last_rule_id + 1)]
      last_rule_id := s.last_rule_id + 1 }
  | .remove i => { s with rules := s.rules.eraseIdx i }

/-- Run a sequence of editor operations. -/
def runOps (ops : List EditOp) (s : DocState) : DocState :=
  List.foldl applyOp s ops

/-- The id invariant of the rule list: every rule's id is bounded by
`last_rule_id` and ids are pairwise distinct. -/
def DocInv (s : DocState) : Prop :=
  (∀ r ∈ s.rules, r.id ≤ s.last_rule_id) ∧ (s.rules.map Rule.id).Nodup

/-- The debounce fields of `StyleWindow`.  Time is the monotone clock in
milliseconds; `Instant::now()` at a tick is passed explicitly. -/
structure DebounceState where
  is_changed : Bool
  last_changed_at : Option Nat
deriving DecidableEq, Repr

/-- `UPDATE_TIMEOUT`: 100 ms. -/
def UPDATE_TIMEOUT : Nat := 100

/-- `StyleWindow::mark_changed`: record the change instant; `is_changed` is
not touched. -/
def mark_changed (s : DebounceState) (now : Nat) : DebounceState :=
  { s with last_changed_at := some now }

/-- `StyleWindow::update_changed`: on a tick at time `now`, if a change is
pending and `now ≥ last_changed_at + UPDATE_TIMEOUT`, set `is_changed` and
clear the pending instant. -/
def update_changed (s : DebounceState) (now : Nat) : DebounceState :=
  let timed_out :=
    match s.last_changed_at with
    | some changed_at => decide (now ≥ changed_at + UPDATE_TIMEOUT)
    | none => false
  if timed_out then { is_changed := true, last_changed_at := none } else s

/-- A sequence of ticks at the given times. -/
def runTicks (s : DebounceState) (times : List Nat) : DebounceState :=
  List.foldl update_changed s times

/-! ## Claim C2 — editor DSL operator scan on `"z >= 5"` -/

/-- Claim C2, counterexample: under the source's fixed-order operator scan,
`"z >= 5"` does NOT parse to the predicate `(z, Ge 5)`: the token `">"`
precedes `">="` in the list and matches first, the right half `"= 5"` fails
numeric parsing, and the whole filter parse fails. -/
theorem c2_counterexample :
    Rule.parse_filter "z >= 5" ≠ some [⟨"z", PropertyFilterOperator.Ge 5⟩] := by
  decide

/-- Claim C2 (amended): the editor DSL parser scans the fixed operator list
and splits each block on the FIRST operator whose token occurs in it; under
this algorithm `"z >= 5"` matches `">"` (not `">="`), the value `"= 5"`
fails numeric parsing in the operator constructor, and the whole filter
parse of `"z >= 5"` fails, yielding `none` (so the emitted rule carries an
empty predicate list). -/
theorem c2_first_token_wins :
    operators.find? (fun op => containsSubstr "z >= 5" op) = some ">" ∧
    PropertyFilterOperator.from_str ">" "= 5" = none ∧
    Rule.parse_filter "z >= 5" = none :=
  ⟨rfl, rfl, rfl⟩

/-! ## Claim C3 — the translator panics on malformed inputs -/

/-- An ESS filter with fewer operands than its head expects. -/
def c3FilterShortEq : Json := Json.arr [Json.str "==", Json.str "class"]

/-- An ESS presence filter missing its property operand. -/
def c3FilterBareExist : Json := Json.arr [Json.str "exist"]

/-- A paint object whose property carries an empty `stops` array. -/
def c3StopsEmptyPaint : Json :=
  Json.obj [("fill-color", Json.obj [("stops", Json.arr [])])]

/-- Claim C3, evaluation at the failing inputs: the translator PANICS
(modelled `Except.error ()`) on a filter with fewer operands than its head
expects (`filter_arr[2]` and `filter_arr[1]` are unguarded `Vec` indexes)
and on a paint property with an empty `stops` array (`steps_arr[0]` is
unguarded), contradicting the claim that translation always returns
normally and never panics. -/
theorem c3_translator_panics :
    parse_filter_to_rules c3FilterShortEq = .error () ∧
    parse_filter_to_rules c3FilterBareExist = .error () ∧
    extract_color c3StopsEmptyPaint "fill-color" = .error () ∧
    extract_number c3StopsEmptyPaint "fill-color" = .error () :=
  ⟨rfl, rfl, rfl, rfl⟩

/-! ## Claim C5 — `interpolate` arrays in the value extractors -/

/-- A paint object with an `interpolate` expression of length 5 whose
element at index 4 is a parseable color literal. -/
def c5InterpolatePaint : Json :=
  Json.obj [("fill-color",
    Json.arr [Json.str "interpolate", Json.str "linear",
      Json.arr [Json.str "zoom"], Json.num 0, Json.str "#ff0000"])]

/-- Claim C5, counterexample: `extract_color` does NOT return the element at
index 4 of an `"interpolate"` array of length at least 5 — its match has no
array arm at all, so it yields no value, even though the element at index 4
is the perfectly parseable color `"#ff0000"`. -/
theorem c5_counterexample :
    extract_color c5InterpolatePaint "fill-color" = .ok none ∧
    parse_color "#ff0000" = some ⟨255, 0, 0, 255⟩ :=
  ⟨rfl, rfl⟩

/-- Claim C5 (amended): only `extract_number` implements the `interpolate`
degradation — for an array value whose first element is the literal
`"interpolate"` and whose length is at least 5 it returns the element at
index 4 read as a number; arrays with any other head (a different string,
or a non-string) yield no value from `extract_number`; and `extract_color`
yields no value for EVERY array-shaped property value. -/
theorem c5_interpolate_extraction :
    (∀ (p : Json) (name : String) (l : List Json),
      p.get name = some (Json.arr l) → extract_color p name = .ok none) ∧
    (∀ (p : Json) (name : String) (l : List Json),
      p.get name = some (Json.arr l) →
      l.get? 0 = some (Json.str "interpolate") → 4 < l.length →
      extract_number p name = .ok ((l.getD 4 .null).asNum)) ∧
    (∀ (p : Json) (name : String) (l : List Json) (s : String),
      p.get name = some (Json.arr l) → l.get? 0 = some (Json.str s) →
      s ≠ "interpolate" → extract_number p name = .ok none) ∧
    (∀ (p : Json) (name : String) (l : List Json) (h₀ : Json),
      p.get name = some (Json.arr l) → l.get? 0 = some h₀ → h₀.asStr = none →
      extract_number p name = .ok none) := by
  refine ⟨?_, ?_, ?_, ?_⟩
  · intro p name l hget
    unfold extract_color
    rw [hget]
  · intro p name l hget h0 h4
    cases l with
    | nil => simp at h0
    | cons x xs =>
      simp only [List.get?_eq_getElem?, List.getElem?_cons_zero,
        Option.some.injEq] at h0
      subst h0
      unfold extract_number
      rw [hget]
      simp only [Json.index, Json.asStr, List.get?_eq_getElem?,
        List.getElem?_cons_zero, Option.getD_some, List.isEmpty_cons]
      simp only [Bool.false_eq_true, if_false]
      rw [if_pos ⟨trivial, h4⟩]
  · intro p name l s hget h0 hne
    cases l with
    | nil => simp at h0
    | cons x xs =>
      simp only [List.get?_eq_getElem?, List.getElem?_cons_zero,
        Option.some.injEq] at h0
      subst h0
      unfold extract_number
      rw [hget]
      simp only [Json.index, Json.asStr, List.get?_eq_getElem?,
        List.getElem?_cons_zero, Option.getD_some, List.isEmpty_cons]
      simp only [Bool.false_eq_true, if_false]
      rw [if_neg]
      intro hand
      exact hne hand.1
  · intro p name l h₀ hget h0 hstr
    cases l with
    | nil => simp at h0
    | cons x xs =>
      simp only [List.get?_eq_getElem?, List.getElem?_cons_zero,
        Option.some.injEq] at h0
      subst h0
      unfold extract_number
      rw [hget]
      simp only [Json.index, List.get?_eq_getElem?,
        List.getElem?_cons_zero, Option.getD_some, List.isEmpty_cons]
      simp only [Bool.false_eq_true, if_false]
      rw [hstr]

/-- Claim C5, witness for the amended theorem: a concrete `interpolate`
array of length 5 whose fifth element is the number 7, and the same paint
handed to `extract_color`. -/
def c5NumberPaint : Json :=
  Json.obj [("line-width",
    Json.arr [Json.str "interpolate", Json.str "linear",
      Json.arr [Json.str "zoom"], Json.num 2, Json.num 7])]

/-- Witness: the amended C5 theorem applied at `c5NumberPaint`. -/
theorem c5_interpolate_extraction_witness :
    extract_color c5NumberPaint "line-width" = .ok none ∧
    extract_number c5NumberPaint "line-width" = .ok (some 7) := by
  constructor
  · exact c5_interpolate_extraction.1 c5NumberPaint "line-width" _ rfl
  · have h := c5_interpolate_extraction.2.1 c5NumberPaint "line-width"
      [Json.str "interpolate", Json.str "linear", Json.arr [Json.str "zoom"],
        Json.num 2, Json.num 7] rfl rfl (by decide)
    exact h.trans rfl

/-! ## Claim C6 — alpha encoding of `rgba`/`hsla` literals -/

-- Evaluation of the color parsers at alpha one half: the Batteries
-- rational operations are restored to default reducibility so that the
-- kernel can evaluate the exact arithmetic.
attribute [local semireducible] Rat.mul Rat.inv Rat.add Rat.sub in
theorem rgba_half_alpha_eval :
    parse_rgba_color "rgba(255,0,0,0.5)" = some ⟨255, 0, 0, 127⟩ := by
  decide

attribute [local semireducible] Rat.mul Rat.inv Rat.add Rat.sub in
theorem hsla_half_alpha_eval :
    parse_hsla_color "hsla(0,100%,50%,0.5)" = some ⟨255, 0, 0, 127⟩ := by
  decide

/-- Claim C6, counterexample: the alpha component is NOT encoded as
`round(a * 255)`: for `a = 0.5` the source computes `(0.5 * 255.0) as u8`,
which truncates `127.5` to `127`, not the claimed `round` result `128`. -/
theorem c6_counterexample :
    parse_rgba_color "rgba(255,0,0,0.5)" ≠ some ⟨255, 0, 0, 128⟩ := by
  rw [rgba_half_alpha_eval]
  decide

/-- Claim C6 (amended): in `parse_rgba_color` and `parse_hsla_color` the
alpha component `a ∈ [0, 1]` is encoded as the TRUNCATION `⌊a * 255⌋`
(`(a * 255.0) as u8`), not as `round(a * 255)`; for example `a = 0.5`
yields alpha 127. -/
theorem c6_alpha_truncated :
    (∀ a : ℚ, 0 ≤ a → a ≤ 1 → f64AsU8 (a * 255) = ⌊a * 255⌋.toNat) ∧
    parse_rgba_color "rgba(255,0,0,0.5)" = some ⟨255, 0, 0, 127⟩ ∧
    parse_hsla_color "hsla(0,100%,50%,0.5)" = some ⟨255, 0, 0, 127⟩ := by
  refine ⟨?_, ?_, ?_⟩
  · intro a h0 h1
    have hq : (0 : ℚ) ≤ a * 255 := by positivity
    have h255 : a * 255 ≤ 255 := by nlinarith
    have hfl : ⌊a * 255⌋ ≤ 255 := by
      calc ⌊a * 255⌋ ≤ ⌊(255 : ℚ)⌋ := Int.floor_mono h255
        _ = 255 := by norm_num
    unfold f64AsU8
    rw [if_neg (not_lt.mpr hq)]
    exact Nat.min_eq_right (by omega)
  · exact rgba_half_alpha_eval
  · exact hsla_half_alpha_eval

/-- Claim C6, witness for the amended theorem at `a = 1/2`. -/
theorem c6_alpha_truncated_witness :
    (0 : ℚ) ≤ 1/2 ∧ (1/2 : ℚ) ≤ 1 ∧
    f64AsU8 ((1/2 : ℚ) * 255) = ⌊(1/2 : ℚ) * 255⌋.toNat :=
  ⟨by norm_num, by norm_num,
    c6_alpha_truncated.1 (1/2) (by norm_num) (by norm_num)⟩

/-! ## Claim C10 — totality of `get_rule` and empty-predicate fallback -/

/-- Claim C10: converting an editor rule to a `StyleRule` is total (the
embedding is a total function whose only indexing is guarded by the
two-piece split check); a filter-text block containing none of the
recognized operator tokens is silently skipped rather than failing the
parse; and whenever `parse_filter` yields no predicates the emitted
`StyleRule` carries an empty predicate list —
`get_rule` always uses `parse_filter().unwrap_or_default()`. -/
theorem c10_get_rule_total :
    (∀ r : Rule,
      (Rule.get_rule r).properties = (Rule.parse_filter r.filter).getD []) ∧
    (∀ block : String,
      operators.find? (fun op => containsSubstr block op) = none →
      processBlock block = some none) ∧
    (∀ r : Rule,
      Rule.parse_filter r.filter = none → (Rule.get_rule r).properties = []) := by
  refine ⟨fun r => rfl, ?_, ?_⟩
  · intro block h
    unfold processBlock
    rw [h]
  · intro r h
    have h1 : (Rule.get_rule r).properties = (Rule.parse_filter r.filter).getD [] :=
      rfl
    rw [h1, h]
    rfl

/-- Claim C10, witness: a block with no operator token is skipped, and a
rule with empty filter text produces an empty predicate list. -/
theorem c10_get_rule_total_witness :
    processBlock "noop" = some none ∧
    (Rule.get_rule (Rule.new_empty 7)).properties = [] :=
  ⟨c10_get_rule_total.2.1 "noop" rfl,
   c10_get_rule_total.2.2 (Rule.new_empty 7) rfl⟩

/-! ## Claim C8 — change debouncing -/

/-- Claim C8: a change recorded at time `t` sets `last_changed_at` to `t`
and leaves `is_changed` false; a tick strictly before `t + 100 ms` changes
nothing (so `is_changed` stays false through any sequence of such ticks),
and the first tick at a time `≥ t + 100 ms` sets `is_changed` and clears
`last_changed_at`. -/
theorem c8_debounce (s : DebounceState) (t : Nat) (hs : s.is_changed = false) :
    (mark_changed s t).is_changed = false ∧
    (mark_changed s t).last_changed_at = some t ∧
    (∀ ts : List Nat, (∀ u ∈ ts, u < t + UPDATE_TIMEOUT) →
      runTicks (mark_changed s t) ts = mark_changed s t) ∧
    (∀ u : Nat, t + UPDATE_TIMEOUT ≤ u →
      update_changed (mark_changed s t) u = ⟨true, none⟩) := by
  have hstep : ∀ u : Nat, u < t + UPDATE_TIMEOUT →
      update_changed (mark_changed s t) u = mark_changed s t := by
    intro u hu
    unfold update_changed mark_changed
    simp only
    rw [if_neg]
    simp only [decide_eq_true_eq]
    omega
  refine ⟨by simpa [mark_changed] using hs, rfl, ?_, ?_⟩
  · intro ts h
    induction ts with
    | nil => rfl
    | cons u ts ih =>
      have h1 : runTicks (mark_changed s t) (u :: ts) =
          runTicks (update_changed (mark_changed s t) u) ts := rfl
      rw [h1, hstep u (h u (List.mem_cons_self u ts))]
      exact ih fun v hv => h v (List.mem_cons_of_mem u hv)
  · intro u hu
    unfold update_changed mark_changed
    simp only
    rw [if_pos]
    simp only [decide_eq_true_eq]
    omega

/-- Claim C8, witness: a change at time 5, two early ticks (times 10 and
104) that change nothing, and the first late tick (time 105) that sets the
flag and clears the pending instant. -/
theorem c8_debounce_witness :
    runTicks (mark_changed ⟨false, none⟩ 5) [10, 104] =
      mark_changed ⟨false, none⟩ 5 ∧
    update_changed (mark_changed ⟨false, none⟩ 5) 105 = ⟨true, none⟩ :=
  ⟨(c8_debounce ⟨false, none⟩ 5 rfl).2.2.1 [10, 104] (by decide),
   (c8_debounce ⟨false, none⟩ 5 rfl).2.2.2 105 (by decide)⟩

/-! ## Claim C4 — MoveUp then MoveDown -/

theorem swapIdx_length (l : List α) (i j : Nat) :
    (swapIdx l i j).length = l.length := by
  unfold swapIdx
  cases hgi : l.get? i <;> cases hgj : l.get? j <;> simp

theorem swapIdx_getElem? (l : List α) (i j k : Nat) (hi : i < l.length)
    (hj : j < l.length) :
    (swapIdx l i j)[k]? =
      if k = j then l[i]? else if k = i then l[j]? else l[k]? := by
  unfold swapIdx
  simp only [List.get?_eq_getElem?]
  rw [List.getElem?_eq_getElem hi, List.getElem?_eq_getElem hj]
  by_cases hkj : k = j
  · subst hkj
    rw [if_pos rfl, List.getElem?_set_self (by simpa using hj)]
  · by_cases hki : k = i
    · subst hki
      rw [if_neg hkj, if_pos rfl, List.getElem?_set_ne (fun h => hkj h.symm),
        List.getElem?_set_self hi]
    · rw [if_neg hkj, if_neg hki, List.getElem?_set_ne (fun h => hkj h.symm),
        List.getElem?_set_ne (fun h => hki h.symm)]

theorem swapIdx_swapIdx (l : List α) (i j : Nat) (hi : i < l.length)
    (hj : j < l.length) :
    swapIdx (swapIdx l i j) j i = l := by
  have hlen : (swapIdx l i j).length = l.length := swapIdx_length l i j
  apply List.ext_getElem?
  intro k
  rw [swapIdx_getElem? _ j i k (by omega) (by omega)]
  by_cases hki : k = i
  · rw [if_pos hki, swapIdx_getElem? l i j j hi hj, if_pos rfl, hki]
  · by_cases hkj : k = j
    · rw [if_neg hki, if_pos hkj, swapIdx_getElem? l i j i hi hj]
      by_cases hij : i = j
      · rw [if_pos hij, hij, ← hkj]
      · rw [if_neg hij, if_pos rfl, ← hkj]
    · rw [if_neg hki, if_neg hkj, swapIdx_getElem? l i j k hi hj,
        if_neg hkj, if_neg hki]

/-- The rule lists used by the concrete MoveUp/MoveDown scenarios. -/
def threeRules : List Rule :=
  [Rule.new_empty 1, Rule.new_empty 2, Rule.new_empty 3]

/-- Claim C4, counterexample: applying `MoveUp` at index 1 and then
`MoveDown` at the SAME index 1 on a three-element list does not restore the
order — it cyclically shifts the three rules (`[1,2,3] → [2,3,1]`), because
after the first swap the moved rule sits at index 0, not index 1. -/
theorem c4_counterexample :
    (applyUiAction (applyUiAction threeRules (some (1, RuleAction.MoveUp)))
      (some (1, RuleAction.MoveDown))).map Rule.id = [2, 3, 1] ∧
    ([2, 3, 1] : List Nat) ≠ [1, 2, 3] :=
  ⟨by decide, by decide⟩

/-- Claim C4 (amended): for an index in the strict interior, `MoveUp` at
index `i` followed by `MoveDown` at index `i - 1` (the position where the
moved rule now sits) restores the rule list exactly. -/
theorem c4_moveup_then_movedown (l : List Rule) (i : Nat) (h1 : 0 < i)
    (h2 : i < l.length - 1) :
    applyUiAction (applyUiAction l (some (i, RuleAction.MoveUp)))
      (some (i - 1, RuleAction.MoveDown)) = l := by
  have hi : i < l.length := by omega
  have hi1 : i - 1 < l.length := by omega
  show applyUiAction (if 0 < i then swapIdx l i (i - 1) else l)
      (some (i - 1, RuleAction.MoveDown)) = l
  rw [if_pos h1]
  show (if i - 1 < (swapIdx l i (i - 1)).length - 1 then
      swapIdx (swapIdx l i (i - 1)) (i - 1) (i - 1 + 1)
    else swapIdx l i (i - 1)) = l
  rw [swapIdx_length]
  rw [if_pos (by omega)]
  have hadd : i - 1 + 1 = i := by omega
  rw [hadd]
  exact swapIdx_swapIdx l i (i - 1) hi hi1

/-- Claim C4, witness for the amended theorem: on three rules, `MoveUp` at
index 1 then `MoveDown` at index 0 restores the list. -/
theorem c4_moveup_then_movedown_witness :
    applyUiAction (applyUiAction threeRules (some (1, RuleAction.MoveUp)))
      (some (0, RuleAction.MoveDown)) = threeRules :=
  c4_moveup_then_movedown threeRules 1 (by decide) (by decide)

/-! ## Claim C9 — per-tick action collection -/

/-- The collection fold keeps the LAST matching element: folding the
overwrite accumulator equals searching the reversed list, with the start
value as fallback. -/
theorem foldl_overwrite_eq_reverse_find (l : List (Nat × RuleAction))
    (init : Option (Nat × RuleAction)) :
    l.foldl (fun acc q => if q.2 ≠ RuleAction.None then some q else acc) init =
      (l.reverse.find? (fun q => decide (q.2 ≠ RuleAction.None))).or init := by
  induction l generalizing init with
  | nil => simp
  | cons x xs ih =>
    simp only [List.foldl_cons, List.reverse_cons, List.find?_append, ih]
    by_cases hx : x.2 ≠ RuleAction.None
    · cases hfind : xs.reverse.find? (fun q => decide (q.2 ≠ RuleAction.None)) <;>
        simp [List.find?, hx, hfind]
    · cases hfind : xs.reverse.find? (fun q => decide (q.2 ≠ RuleAction.None)) <;>
        simp [List.find?, hx, hfind]

/-- Claim C9, counterexample: with rules carrying actions
`[Remove, None, Remove]`, the tick removes the rule at index 2 (the LAST
non-`None` action), not index 0 (the first) — ids `[1, 2]` survive instead
of the claimed `[2, 3]` — and the surviving rules' action fields still hold
the frame's values afterwards instead of being reset to `None`. -/
theorem c9_counterexample :
    (styleWindowTick threeRules
      [RuleAction.Remove, RuleAction.None, RuleAction.Remove]).map Rule.id =
      [1, 2] ∧
    ([1, 2] : List Nat) ≠ [2, 3] ∧
    (styleWindowTick threeRules
      [RuleAction.Remove, RuleAction.None, RuleAction.Remove]).map Rule.action ≠
      [RuleAction.None, RuleAction.None] :=
  ⟨by decide, by decide, by decide⟩

/-- Claim C9 (amended): on each tick the document applies at most one
non-`None` rule action — the LAST one in rule iteration order (each
non-`None` action overwrites the accumulator, so the collected action is
the first non-`None` entry of the REVERSED action list) — and the action
fields are not reset after applying: they keep the frame's values (each is
cleared only at the start of that rule's next UI pass). -/
theorem c9_last_action_wins :
    (∀ acts : List RuleAction,
      lastNonNone acts =
        (acts.enum.reverse).find? (fun q => decide (q.2 ≠ RuleAction.None))) ∧
    (∀ (rules : List Rule) (acts : List RuleAction),
      styleWindowTick rules acts =
        applyUiAction (setActions rules acts)
          (lastNonNone ((setActions rules acts).map Rule.action))) ∧
    (∀ (rules : List Rule) (acts : List RuleAction),
      (setActions rules acts).map Rule.action =
        acts.take rules.length) := by
  refine ⟨?_, fun rules acts => rfl, ?_⟩
  · intro acts
    unfold lastNonNone
    rw [foldl_overwrite_eq_reverse_find]
    exact Option.or_none
  · intro rules acts
    induction rules generalizing acts with
    | nil => simp [setActions]
    | cons r rs ih =>
      cases acts with
      | nil => simp [setActions]
      | cons a as =>
        have h := ih as
        simp only [setActions] at h ⊢
        simp [rule_ui, h]

/-! ## Claim C7 — monotone, never-reused rule ids -/

/-- One editor operation preserves the id invariant, never decrements
`last_rule_id`, and introduces only ids strictly above the previous
watermark. -/
theorem applyOp_preserves_inv (s : DocState) (op : EditOp) (h : DocInv s) :
    DocInv (applyOp s op) ∧ s.last_rule_id ≤ (applyOp s op).last_rule_id ∧
    (∀ n ∈ (applyOp s op).rules.map Rule.id,
      n ∈ s.rules.map Rule.id ∨ s.last_rule_id < n) := by
  obtain ⟨hle, hnd⟩ := h
  cases op with
  | add =>
    refine ⟨⟨?_, ?_⟩, Nat.le_succ _, ?_⟩
    · intro r hr
      simp only [applyOp, List.mem_append, List.mem_singleton] at hr
      rcases hr with h1 | h1
      · exact le_trans (hle r h1) (Nat.le_succ _)
      · subst h1; exact le_refl _
    · simp only [applyOp, List.map_append, List.map_cons, List.map_nil]
      rw [List.nodup_append]
      refine ⟨hnd, List.nodup_singleton _, ?_⟩
      intro n hn hn1
      simp only [Rule.new_empty, List.mem_singleton] at hn1
      subst hn1
      rcases List.mem_map.mp hn with ⟨r, hr, hid⟩
      have := hle r hr
      omega
    · intro n hn
      simp only [applyOp, List.map_append, List.map_cons, List.map_nil,
        List.mem_append, List.mem_singleton] at hn
      rcases hn with h1 | h1
      · exact Or.inl h1
      · subst h1; exact Or.inr (Nat.lt_succ_self _)
  | remove i =>
    have hsub : List.Sublist (s.rules.eraseIdx i) s.rules :=
      List.eraseIdx_sublist s.rules i
    refine ⟨⟨?_, ?_⟩, le_refl _, ?_⟩
    · intro r hr
      exact hle r (hsub.subset hr)
    · exact List.Nodup.sublist (hsub.map Rule.id) hnd
    · intro n hn
      exact Or.inl ((hsub.map Rule.id).subset hn)

/-- Claim C7: after any sequence of add and remove operations starting from
a state satisfying the id invariant, every rule's id is at most
`last_rule_id`, no two rules share an id, `last_rule_id` never decreases,
and every id present at the end either was present at the start or exceeds
the starting watermark (so removed ids — all bounded by the watermark at
removal time — are never reused). -/
theorem c7_ids_monotone (ops : List EditOp) (s : DocState) (h : DocInv s) :
    DocInv (runOps ops s) ∧ s.last_rule_id ≤ (runOps ops s).last_rule_id ∧
    (∀ n ∈ (runOps ops s).rules.map Rule.id,
      n ∈ s.rules.map Rule.id ∨ s.last_rule_id < n) := by
  induction ops generalizing s with
  | nil => exact ⟨h, le_refl _, fun n hn => Or.inl hn⟩
  | cons op ops ih =>
    have hstep := applyOp_preserves_inv s op h
    have hrec := ih (applyOp s op) hstep.1
    have hruns : runOps (op :: ops) s = runOps ops (applyOp s op) := rfl
    rw [hruns]
    refine ⟨hrec.1, le_trans hstep.2.1 hrec.2.1, ?_⟩
    intro n hn
    rcases hrec.2.2 n hn with h1 | h1
    · exact hstep.2.2 n h1
    · exact Or.inr (lt_of_le_of_lt hstep.2.1 h1)

/-- Claim C7, witness: add, remove the only rule, add again, starting from
the empty document — the invariant holds afterwards and the id counter has
not decreased. -/
theorem c7_ids_monotone_witness :
    DocInv (runOps [EditOp.add, EditOp.remove 0, EditOp.add] ⟨[], 0⟩) ∧
    (0 : Nat) ≤
      (runOps [EditOp.add, EditOp.remove 0, EditOp.add] ⟨[], 0⟩).last_rule_id :=
  ⟨(c7_ids_monotone [EditOp.add, EditOp.remove 0, EditOp.add] ⟨[], 0⟩
      ⟨fun r hr => absurd hr (List.not_mem_nil r), List.nodup_nil⟩).1,
   (c7_ids_monotone [EditOp.add, EditOp.remove 0, EditOp.add] ⟨[], 0⟩
      ⟨fun r hr => absurd hr (List.not_mem_nil r), List.nodup_nil⟩).2.1⟩

/-! ## Claim C1 — layers whose filter fails to parse -/

/-- A line layer with a source-layer, a resolvable line symbol, and a
filter with the unsupported head `"any"` (three elements, so the parse
fails cleanly without reaching an unguarded index). -/
def c1Layer : Layer :=
  { id := "roads-line"
    layer_type := .Line
    source := none
    source_layer := some "roads"
    layout := none
    paint := some (Json.obj [("line-color", Json.str "#abc")])
    filter := some (Json.arr [Json.str "any", Json.str "a", Json.str "b"]) }

/-- Claim C1, counterexample: the filter of `c1Layer` fails to parse
(unsupported head `"any"`), and `convert_layer` then DROPS the layer —
`galileo_filters?` propagates the failure — instead of emitting a
`StyleRule` with an empty predicate list as claimed. -/
theorem c1_counterexample :
    parse_filter_to_rules
      (Json.arr [Json.str "any", Json.str "a", Json.str "b"]) = .ok none ∧
    convert_layer c1Layer = .ok none ∧
    convert_layer c1Layer ≠
      .ok (some ⟨some "roads", [], VectorTileSymbol.Line 1 ⟨170, 187, 204, 255⟩⟩) := by
  refine ⟨rfl, rfl, ?_⟩
  intro h
  rw [show convert_layer c1Layer = .ok none from rfl] at h
  simp at h

/-- Claim C1 (amended): for every ESS layer with a source-layer, a symbol
resolving to something other than `None`, and a filter that fails to parse
(without panicking), the translator logs a diagnostic and DROPS the layer:
`convert_layer` returns no rule at all, rather than emitting one with an
empty predicate list. -/
theorem c1_failed_filter_drops_layer (layer : Layer) (name : String)
    (sym : VectorTileSymbol) (f : Json)
    (hsl : layer.source_layer = some name)
    (hsym : layerSymbol layer = .ok (some sym))
    (hne : sym ≠ .None)
    (hf : layer.filter = some f)
    (hpf : parse_filter_to_rules f = .ok none) :
    convert_layer layer = .ok none := by
  unfold convert_layer
  rw [hsl, hsym, hf]
  dsimp only
  rw [if_neg hne, hpf]

/-- A fill layer with a resolvable polygon symbol and a filter with the
unsupported head `"none"`. -/
def c1FillLayer : Layer :=
  { id := "water-fill"
    layer_type := .Fill
    source := none
    source_layer := some "water"
    layout := none
    paint := some (Json.obj [("fill-color", Json.str "#0000ff")])
    filter := some (Json.arr [Json.str "none", Json.str "a", Json.str "b"]) }

-- Symbol evaluation for the witness layer (rational operations restored to
-- default reducibility for kernel evaluation of the opacity arithmetic).
attribute [local semireducible] Rat.mul Rat.inv Rat.add Rat.sub in
theorem c1FillLayer_symbol_eval :
    layerSymbol c1FillLayer =
      .ok (some (VectorTileSymbol.Polygon ⟨0, 0, 255, 255⟩)) := by
  rfl

/-- Claim C1, witness for the amended theorem at `c1FillLayer`. -/
theorem c1_failed_filter_drops_layer_witness :
    convert_layer c1FillLayer = .ok none :=
  c1_failed_filter_drops_layer c1FillLayer "water"
    (VectorTileSymbol.Polygon ⟨0, 0, 255, 255⟩)
    (Json.arr [Json.str "none", Json.str "a", Json.str "b"])
    rfl c1FillLayer_symbol_eval (by decide) rfl rfl
